import Mathlib

/-!
Verification of the pyusd-guardian monitoring pipeline.

Shallow embedding of the JavaScript sources:
* `src/monitor.js` / `src/blockMonitor.js` — transaction filter, per-transaction
  pipeline, alert assembly, block cursor / poller loop;
* `src/unnamed/part_004` — opcode-level trace risk analyzer (`analyzeTrace`);
* `src/complianceEngine.js` — compliance rule engine (`evaluateCompliance`);
* `src/unnamed/part_011` / `src/traceAnalyzer.js` — trace fetcher;
* `src/utils.js` — retry helper (`withRetry`);
* `src/database.js` — alert store (`saveAlert` with unique `txHash` index).

JavaScript numbers on the relevant paths are non-negative integers and are
modelled as `Nat`; nullable values as `Option`; thrown exceptions as `Except`.
-/

/-! ## JavaScript-style string helpers -/

/-- Character-list prefix test used to implement substring containment. -/
def charsHasPrefix : List Char → List Char → Bool
  | _, [] => true
  | [], _ :: _ => false
  | c :: cs, p :: ps => c == p && charsHasPrefix cs ps

/-- Containment of `pat` in `l`, models JavaScript `String.prototype.includes`. -/
def charsContains (l pat : List Char) : Bool :=
  charsHasPrefix l pat ||
    match l with
    | [] => false
    | _ :: rest => charsContains rest pat

/-- `strContains s pat` models the JS expression `s.includes(pat)`. -/
def strContains (s pat : String) : Bool :=
  charsContains s.data pat.data

/-- Models JS `s.slice(-n)`: the last `n` characters (the whole string when
shorter than `n`). -/
def strTakeRight (s : String) (n : Nat) : String :=
  ⟨s.data.drop (s.data.length - n)⟩

/-- Models JS `s.startsWith(pref)`. -/
def strStartsWith (s pref : String) : Bool :=
  charsHasPrefix s.data pref.data

/-- Models JS `s.slice(n)` for a non-negative `n`. -/
def strDrop (s : String) (n : Nat) : String :=
  ⟨s.data.drop n⟩

/-- Models JS `s.length` (the strings here are ASCII). -/
def strLength (s : String) : Nat :=
  s.data.length

/-- ASCII lower-casing of one character (the inputs here are hex addresses,
so ASCII captures JS `toLowerCase` exactly). -/
def charToLower (c : Char) : Char :=
  if 'A' ≤ c ∧ c ≤ 'Z' then Char.ofNat (c.toNat + 32) else c

/-- Models JS `s.toLowerCase()` on ASCII strings. -/
def jsToLower (s : String) : String :=
  ⟨s.data.map charToLower⟩

/-- A hexadecimal digit, as accepted by both the hash regex of
`src/unnamed/part_011` and the `BigInt` hex grammar. -/
def isHexDigit (c : Char) : Bool :=
  c.isDigit || ('a' ≤ c && c ≤ 'f') || ('A' ≤ c && c ≤ 'F')

/-- Models JS `s.slice(a, b)` for `0 ≤ a ≤ b` (clamped at the end of the
string). -/
def strSlice (s : String) (a b : Nat) : String :=
  ⟨(s.data.drop a).take (b - a)⟩

/-- Success condition of the JS conversion `BigInt('0x' + s)`: after the
`0x` prefix the grammar requires at least one hex digit, so the conversion
succeeds iff `s` is a nonempty string of hex digits, and throws a
`SyntaxError` otherwise. -/
def bigIntHexOk (s : String) : Bool :=
  !s.data.isEmpty && s.data.all isHexDigit

/-! ## Data model

`Step` and `Trace` follow the fields the code reads from a
`debug_traceTransaction` response (`src/unnamed/part_004`,
`src/complianceEngine.js`): the trace-level total-gas field is called `gas` in
the code (`trace.gas`), steps carry `pc`, `op`, `gas`, `depth`, `stack`. -/

structure Step where
  pc : Nat
  op : String
  gas : Nat
  depth : Nat
  stack : List String
deriving DecidableEq

structure Trace where
  gas : Option Nat
  structLogs : List Step
  returnValue : Option String
deriving DecidableEq

/-- A raw transaction as read by `processTransaction` in `src/monitor.js`:
fields `hash`, `to`, `from`, `data`, `input`, `value`, all possibly absent.
The JS fields `to` and `from` collide with Lean tokens and are embedded as
`to'` and `from'`. -/
structure RawTx where
  hash : Option String
  to' : Option String
  from' : Option String
  data : Option String
  input : Option String
  value : Option String
deriving DecidableEq

/-- JS truthiness-based string fallback `a || b` where the empty string is
falsy. -/
def jsStrOr (a : Option String) (b : String) : String :=
  match a with
  | some s => if s = "" then b else s
  | none => b

/-- `tx.data || tx.input || ''` from `src/monitor.js` line 40. -/
def inputOf (tx : RawTx) : String :=
  jsStrOr tx.data (jsStrOr tx.input "")

/-- `tx.x ? String(tx.x).toLowerCase() : null` from `src/monitor.js`
lines 38-39: an absent or empty string is mapped to `null`. -/
def lowerOpt (a : Option String) : Option String :=
  match a with
  | some s => if s = "" then none else some (jsToLower s)
  | none => none

/-- The monitored token address, lower-cased (`src/config.js`,
`src/blockMonitor.js` line 22 default). -/
def PYUSD_ADDRESS : String := "0x6c3ea9036406852006290770b2e17e0e4f37f978"

/-! ## Transaction filter and pipeline gate (monitor.js / blockMonitor.js) -/

/-- The involvement predicate of `src/monitor.js` lines 50-54 and
`src/blockMonitor.js` lines 120-124. -/
def involvesPYUSD (tx : RawTx) : Bool :=
  lowerOpt tx.to' == some PYUSD_ADDRESS ||
  lowerOpt tx.from' == some PYUSD_ADDRESS ||
  strContains (inputOf tx) (strDrop PYUSD_ADDRESS 2)

/-- `input.startsWith('0xa9059cbb')` from `src/monitor.js` line 57: the
ERC-20 `transfer(address,uint256)` selector test. -/
def isPYUSDTransfer (tx : RawTx) : Bool :=
  strStartsWith (inputOf tx) "0xa9059cbb"

/-- The decode of `src/monitor.js` lines 60-61 as a success predicate:
`toAddress = '0x' + input.slice(34, 74)` is a pure string operation and
cannot throw, but `BigInt('0x' + input.slice(74, 138))` throws unless the
value slice is a nonempty hex string. -/
def transferDecodeOk (input : String) : Bool :=
  bigIntHexOk (strSlice input 74 138)

/-- Whether `processTransaction` in `src/monitor.js` reaches the trace
fetch: it requires a truthy `from` (line 44); in the `isPYUSDTransfer`
branch the `BigInt` decode of line 61 runs first and its throw is caught
at the transaction boundary (line 193), so the fetch at line 79 is reached
only when the decode succeeds; otherwise the `involvesPYUSD` branch
fetches at line 141. -/
def monitorFetchesTrace (tx : RawTx) : Bool :=
  match lowerOpt tx.from' with
  | none => false
  | some _ =>
      if isPYUSDTransfer tx then transferDecodeOk (inputOf tx)
      else involvesPYUSD tx

/-- Whether `processTransaction` in `src/blockMonitor.js` reaches the trace
fetch (lines 114-130): truthy `from` and `involvesPYUSD`. -/
def blockMonitorFetchesTrace (tx : RawTx) : Bool :=
  match lowerOpt tx.from' with
  | none => false
  | some _ => involvesPYUSD tx

/-! ## Trace risk analyzer (src/unnamed/part_004) -/

/-- The fixed risky-opcode set (`src/unnamed/part_004` lines 1-7,
`src/complianceEngine.js` line 10). -/
def riskyOpcodesSet : List String :=
  ["DELEGATECALL", "CALLCODE", "SELFDESTRUCT", "CREATE", "CREATE2"]

/-- The fixed stack-manipulation opcode set (`src/unnamed/part_004`
lines 9-13). -/
def stackManipulationOpcodesSet : List String :=
  ["CALLDATALOAD", "CALLDATACOPY", "SLOAD", "SSTORE", "MLOAD", "MSTORE",
   "JUMP", "JUMPI"]

/-- One entry of `report.riskyOpcodes` / `report.stackManipulation`:
`{op, pc, depth}`. -/
structure RiskItem where
  op : String
  pc : Nat
  depth : Nat
deriving DecidableEq

/-- The risk report produced by `analyzeTrace` (`src/unnamed/part_004`
lines 20-31). -/
structure RiskReport where
  riskyOpcodes : List RiskItem
  stackManipulation : List RiskItem
  opcodeFrequency : List (String × Nat)
  depthMax : Nat
  gasSpikeDetected : Bool
  highGasUsage : Bool
  reentrancySuspected : Bool
  largeReturnData : Bool
  totalSteps : Nat
  flagged : Bool
deriving DecidableEq

/-- `report.opcodeFrequency[op] = (report.opcodeFrequency[op] || 0) + 1`:
increment the per-opcode counter in an association list. -/
def bumpFreq : List (String × Nat) → String → List (String × Nat)
  | [], op => [(op, 1)]
  | (k, v) :: rest, op =>
      if k = op then (k, v + 1) :: rest else (k, v) :: bumpFreq rest op

/-- Lookup in the opcode-frequency table, `0` when absent. -/
def freqOf : List (String × Nat) → String → Nat
  | [], _ => 0
  | (k, v) :: rest, op => if k = op then v else freqOf rest op

/-- JS `Set.prototype.add` on a duplicate-free list (insertion order kept). -/
def jsSetAdd (s : List Nat) (x : Nat) : List Nat :=
  if x ∈ s then s else s ++ [x]

/-- Loop state of the single pass in `analyzeTrace`: the report fields built
in the loop plus the local variables `lastGas` and `delegateCallDepths`
(`src/unnamed/part_004` lines 33-34). -/
structure ScanState where
  riskyOpcodes : List RiskItem
  stackManipulation : List RiskItem
  opcodeFrequency : List (String × Nat)
  depthMax : Nat
  gasSpikeDetected : Bool
  totalSteps : Nat
  flagged : Bool
  lastGas : Option Nat
  delegateCallDepths : List Nat
deriving DecidableEq

def initScan : ScanState :=
  { riskyOpcodes := [], stackManipulation := [], opcodeFrequency := [],
    depthMax := 0, gasSpikeDetected := false, totalSteps := 0,
    flagged := false, lastGas := none, delegateCallDepths := [] }

/-- One iteration of the `for (const step of trace.structLogs)` loop
(`src/unnamed/part_004` lines 36-86), in source order.  The JS float
comparison `step.gas > lastGas * 1.5` is modelled exactly as the rational
comparison `3 * lastGas < 2 * step.gas`. -/
def scanStep (st : ScanState) (s : Step) : ScanState :=
  let totalSteps := st.totalSteps + 1
  let freq := bumpFreq st.opcodeFrequency s.op
  let riskyHit := riskyOpcodesSet.contains s.op
  let riskyList :=
    if riskyHit then st.riskyOpcodes ++ [⟨s.op, s.pc, s.depth⟩]
    else st.riskyOpcodes
  let flagged1 := st.flagged || riskyHit
  let ddepths :=
    if riskyHit && s.op == "DELEGATECALL" then
      jsSetAdd st.delegateCallDepths s.depth
    else st.delegateCallDepths
  let stackList :=
    if stackManipulationOpcodesSet.contains s.op then
      st.stackManipulation ++ [⟨s.op, s.pc, s.depth⟩]
    else st.stackManipulation
  let flagged2 :=
    if (s.op == "JUMPI" || s.op == "JUMP") && decide (5 < freqOf freq s.op)
    then true else flagged1
  let depthMax := if st.depthMax < s.depth then s.depth else st.depthMax
  let spike :=
    match st.lastGas with
    | some lg => decide (3 * lg < 2 * s.gas)
    | none => false
  { riskyOpcodes := riskyList, stackManipulation := stackList,
    opcodeFrequency := freq, depthMax := depthMax,
    gasSpikeDetected := st.gasSpikeDetected || spike,
    totalSteps := totalSteps, flagged := flagged2 || spike,
    lastGas := some s.gas, delegateCallDepths := ddepths }

/-- `trace.structLogs.at(-1)?.gas || 0`. -/
def lastStepGasOr0 (t : Trace) : Nat :=
  match t.structLogs.getLast? with
  | some s => s.gas
  | none => 0

/-- `trace.gas || (trace.structLogs.at(-1)?.gas || 0)`
(`src/unnamed/part_004` line 89, `src/complianceEngine.js` line 61).
JS `||` is truthiness-based, so a present `gas` of `0` also falls back. -/
def jsFinalGas (t : Trace) : Nat :=
  match t.gas with
  | some g => if g = 0 then lastStepGasOr0 t else g
  | none => lastStepGasOr0 t

/-- The high-gas threshold (`src/unnamed/part_004` line 90,
`src/complianceEngine.js` line 8). -/
def HIGH_GAS_THRESHOLD : Nat := 5000000

/-- `analyzeTrace` from `src/unnamed/part_004`: single pass over
`structLogs`, then the post-loop high-gas, reentrancy and return-data
checks (lines 88-105). -/
def analyzeTrace (t : Trace) : RiskReport :=
  let st := t.structLogs.foldl scanStep initScan
  let highGas := decide (HIGH_GAS_THRESHOLD < jsFinalGas t)
  let reent := decide (1 < st.delegateCallDepths.length)
  let largeRet :=
    match t.returnValue with
    | some rv => if rv = "" then false else decide (1024 * 8 < strLength rv)
    | none => false
  { riskyOpcodes := st.riskyOpcodes,
    stackManipulation := st.stackManipulation,
    opcodeFrequency := st.opcodeFrequency,
    depthMax := st.depthMax,
    gasSpikeDetected := st.gasSpikeDetected,
    highGasUsage := highGas,
    reentrancySuspected := reent,
    largeReturnData := largeRet,
    totalSteps := st.totalSteps,
    flagged := ((st.flagged || highGas) || reent) || largeRet }

/-! ## Compliance rule engine (src/complianceEngine.js) -/

/-- A triggered compliance rule: `{rule, details, flagged: true}`. -/
structure ComplianceIssue where
  rule : String
  details : String
  flagged : Bool
deriving DecidableEq

/-- The configured denylist (`src/complianceEngine.js` lines 3-6). -/
def BLACKLIST : List String :=
  ["0x1111111111111111111111111111111111111111",
   "0xdeadbeefdeadbeefdeadbeefdeadbeefdeadbeef"]

/-- The internal-transfer-flood threshold (`src/complianceEngine.js` line 9). -/
def INTERNAL_TRANSFER_THRESHOLD : Nat := 5

/-- JS `${x}` rendering of a possibly-undefined string. -/
def optShow (o : Option String) : String :=
  match o with
  | some s => s
  | none => "undefined"

/-- `checkBlacklist` (`src/complianceEngine.js` lines 15-28): optional
chaining `tx.to?.toLowerCase()` keeps `undefined`, and `Set.has(undefined)`
is `false`. -/
def checkBlacklist (tx : RawTx) : Option ComplianceIssue :=
  let toL := tx.to'.map jsToLower
  let fromL := tx.from'.map jsToLower
  let toHit := match toL with | some s => BLACKLIST.contains s | none => false
  let fromHit := match fromL with | some s => BLACKLIST.contains s | none => false
  if toHit || fromHit then
    some { rule := "BLACKLISTED_ADDRESS",
           details := optShow fromL ++ " -> " ++ optShow toL,
           flagged := true }
  else none

/-- The `transfers.some(...)` scan of `checkSelfTransferLoop`
(`src/complianceEngine.js` lines 38-46).  For a step whose stack has at
least two entries the callback evaluates `tx.from.toLowerCase()`, which
throws a `TypeError` when `tx.from` is `undefined`; this is the `.error`
case. -/
def loopScan : List Step → Option String → Except String Bool
  | [], _ => .ok false
  | s :: rest, f =>
      if 2 ≤ s.stack.length then
        match f with
        | none => .error "TypeError: Cannot read properties of undefined"
        | some fv =>
            let recipientHex := s.stack.getD (s.stack.length - 2) ""
            let recipientAddr := "0x" ++ jsToLower (strTakeRight recipientHex 40)
            if recipientAddr = jsToLower fv then .ok true else loopScan rest f
      else loopScan rest f

/-- `checkSelfTransferLoop` (`src/complianceEngine.js` lines 33-55). -/
def checkSelfTransferLoop (t : Trace) (tx : RawTx) :
    Except String (Option ComplianceIssue) :=
  let transfers := t.structLogs.filter (fun l => l.op == "CALL" || l.op == "CALLCODE")
  match loopScan transfers tx.from' with
  | .error e => .error e
  | .ok true =>
      .ok (some { rule := "SELF_TRANSFER_LOOP",
                  details := "Loop detected from " ++ optShow tx.from',
                  flagged := true })
  | .ok false => .ok none

/-- `checkHighGas` (`src/complianceEngine.js` lines 60-70); the gas value is
the same truthiness-based fallback `trace.gas || (last step gas || 0)` as in
the analyzer. -/
def checkHighGas (t : Trace) : Option ComplianceIssue :=
  let finalGas := jsFinalGas t
  if HIGH_GAS_THRESHOLD < finalGas then
    some { rule := "HIGH_GAS_USAGE",
           details := "Gas used: " ++ toString finalGas,
           flagged := true }
  else none

/-- `checkInternalTransferFlood` (`src/complianceEngine.js` lines 75-85). -/
def checkInternalTransferFlood (t : Trace) : Option ComplianceIssue :=
  let calls := t.structLogs.filter (fun l => l.op == "CALL")
  if INTERNAL_TRANSFER_THRESHOLD < calls.length then
    some { rule := "INTERNAL_TRANSFER_FLOOD",
           details := toString calls.length ++ " internal transfers detected",
           flagged := true }
  else none

/-- JS `Set` insertion for opcode names, insertion order kept. -/
def jsSetAddStr (s : List String) (x : String) : List String :=
  if x ∈ s then s else s ++ [x]

/-- `checkRiskyOpcodes` (`src/complianceEngine.js` lines 90-100). -/
def checkRiskyOpcodes (t : Trace) : Option ComplianceIssue :=
  let hits := t.structLogs.filter (fun l => riskyOpcodesSet.contains l.op)
  if 0 < hits.length then
    some { rule := "RISKY_OPCODE_USAGE",
           details := "Opcodes used: " ++
             String.intercalate ", " ((hits.map Step.op).foldl jsSetAddStr []),
           flagged := true }
  else none

/-- `checkReentrancy` (`src/complianceEngine.js` lines 105-120). -/
def checkReentrancy (t : Trace) : Option ComplianceIssue :=
  let depths := t.structLogs.foldl
    (fun acc l => if l.op == "DELEGATECALL" then jsSetAdd acc l.depth else acc) []
  if 1 < depths.length then
    some { rule := "REENTRANCY_SUSPECTED",
           details := "Delegate calls at depths: " ++
             String.intercalate ", " (depths.map toString),
           flagged := true }
  else none

/-- The trace object as seen through a one-parameter rule: the engine calls
every rule as `rule(trace, tx)`, so `checkBlacklist`'s sole parameter is
bound to the *trace*, whose `.to`/`.from` reads yield `undefined`. -/
def traceAsTx (_t : Trace) : RawTx :=
  { hash := none, to' := none, from' := none,
    data := none, input := none, value := none }

/-- `evaluateCompliance` (`src/complianceEngine.js` lines 125-143): runs the
six rules in order and collects non-null results.  The call site
`rule(trace, tx)` binds the trace to `checkBlacklist`'s single parameter
(`traceAsTx`), so the blacklist rule reads `undefined` addresses and can
never fire.  Only `checkSelfTransferLoop` can throw; a thrown error
propagates out of the engine, so the result is `Except`. -/
def evaluateCompliance (t : Trace) (tx : RawTx) :
    Except String (List ComplianceIssue) := do
  let r1 := checkBlacklist (traceAsTx t)
  let r2 ← checkSelfTransferLoop t tx
  let r3 := checkHighGas t
  let r4 := checkInternalTransferFlood t
  let r5 := checkRiskyOpcodes t
  let r6 := checkReentrancy t
  pure (([r1, r2, r3, r4, r5, r6]).filterMap id)

/-! ## Alert assembly (monitor.js / blockMonitor.js) -/

/-- An alert row as assembled by the pipelines and stored by `saveAlert`
(`src/database.js` AlertSchema; `timestamp` is kept as an opaque string). -/
structure Alert where
  txHash : String
  blockNumber : Nat
  timestamp : String
  rule : String
  details : String
  riskReport : RiskReport
  severity : Option String
deriving DecidableEq

/-- Alert assembly of `src/blockMonitor.js` lines 139-171: inside
`if (report.flagged || complianceFlags.length > 0)`, one alert per
compliance issue (`for (const issue of complianceFlags)`). -/
def blockMonitorAlerts (txHash : String) (blockNumber : Nat) (ts : String)
    (report : RiskReport) (flags : List ComplianceIssue) : List Alert :=
  if report.flagged || decide (0 < flags.length) then
    flags.map (fun issue =>
      { txHash := txHash, blockNumber := blockNumber, timestamp := ts,
        rule := issue.rule, details := issue.details,
        riskReport := report, severity := none })
  else []

/-- Alert assembly of `src/monitor.js` lines 94-124 (the `isPYUSDTransfer`
branch): inside the same guard a single combined alert is built, with the
rules joined by a comma (or the literal `"No rule triggered"` when the
engine returned no issue).  `report?.severity` is absent from every
`analyzeTrace` report, so the JS `||` always yields `'medium'`. -/
def monitorAlerts (txHash : String) (blockNumber : Nat) (ts : String)
    (report : RiskReport) (flags : List ComplianceIssue) : List Alert :=
  if report.flagged || decide (0 < flags.length) then
    [{ txHash := txHash, blockNumber := blockNumber, timestamp := ts,
       rule := if flags.length ≠ 0
               then String.intercalate ", " (flags.map ComplianceIssue.rule)
               else "No rule triggered",
       details := if flags.length ≠ 0
                  then String.intercalate "; " (flags.map ComplianceIssue.details)
                  else "No details",
       riskReport := report, severity := some "medium" }]
  else []

/-! ## Alert store (src/database.js) -/

/-- `Alert.findOneAndUpdate({txHash}, alertData)`: replace the first stored
document whose `txHash` matches. -/
def replaceFirstByHash : List Alert → Alert → List Alert
  | [], _ => []
  | b :: rest, a =>
      if b.txHash = a.txHash then a :: rest else b :: replaceFirstByHash rest a

/-- `saveAlert` (`src/database.js` lines 107-123) against a store with the
unique index on `txHash` (AlertSchema lines 16-21): inserting a document
whose `txHash` already exists raises the duplicate-key error 11000, which
the catch block turns into `findOneAndUpdate` on `txHash`. -/
def saveAlert (store : List Alert) (a : Alert) : List Alert :=
  if store.any (fun b => b.txHash = a.txHash) then replaceFirstByHash store a
  else store ++ [a]

/-! ## Trace fetcher (src/unnamed/part_011 and src/traceAnalyzer.js) -/

/-- The `structLogs` field of an RPC response object: an array of steps or
some non-array value. -/
inductive SLField where
  | arr (steps : List Step)
  | notArr
deriving DecidableEq

/-- A JS value returned by the raw `debug_traceTransaction` call: `null`, a
non-object primitive, or an object with its `structLogs` field. -/
inductive JsVal where
  | vnull
  | vprim
  | vobj (structLogs : SLField)
deriving DecidableEq

/-- An error thrown by the RPC transport, with the fields the code
inspects. -/
structure RpcError where
  message : String
  code : Option String
deriving DecidableEq

/-- The shape check of `src/unnamed/part_011` line 33:
`!res || typeof res !== 'object' || !Array.isArray(res.structLogs)` fails
exactly when the value is not an object carrying an array `structLogs`. -/
def isValidShape : JsVal → Bool
  | .vobj (.arr _) => true
  | _ => false

/-- `isValidTxHash` (`src/unnamed/part_011` lines 8-10): the regex
`^0x([A-Fa-f0-9]{64})$`. -/
def isValidTxHash (h : String) : Bool :=
  strStartsWith h "0x" && strLength (strDrop h 2) = 64 &&
    (strDrop h 2).data.all isHexDigit

/-- The retry condition of `src/unnamed/part_011` line 42:
`err.message.includes('timeout') || err.code === 'ETIMEDOUT'`. -/
def retryCondition (e : RpcError) : Bool :=
  strContains e.message "timeout" || e.code == some "ETIMEDOUT"

/-- `getTransactionTrace` from `src/unnamed/part_011`, as a function of the
outcome of the first raw call and of the optional retry call: hash
validation, shape validation of the first response, and a one-shot retry on
timeout whose response is returned without shape validation (line 46). -/
def getTransactionTraceV (txHash : String)
    (first retry : Except RpcError JsVal) : Option JsVal :=
  if !isValidTxHash txHash then none
  else
    match first with
    | .ok res => if isValidShape res then some res else none
    | .error e =>
        if retryCondition e then
          match retry with
          | .ok r => some r
          | .error _ => none
        else none

/-- `getTransactionTrace` from `src/traceAnalyzer.js` (the module the
pipelines import): any successful response is returned as-is, with no hash
or shape validation; any error yields `null`. -/
def getTransactionTraceTA (first : Except RpcError JsVal) : Option JsVal :=
  match first with
  | .ok res => some res
  | .error _ => none

/-! ## Retry helper (src/utils.js lines 21-32, src/blockMonitor.js 85-96) -/

/-- Observable outcome of a `withRetry` run: the final result, the number of
invocations of the wrapped operation, and the list of waits performed
(each retry waits `RETRY_DELAY_MS` before re-invoking). -/
structure RetryTrace (E A : Type) where
  result : Except E A
  calls : Nat
  delays : List Nat

/-- `withRetry(fn, retryCount)`: `op k` is the outcome of the `k`-th
invocation of the wrapped thunk (0-based).  On failure with
`retryCount >= maxRetries` the last error is rethrown; otherwise the helper
waits `delayMs` and recurses with `retryCount + 1`. -/
def withRetry (op : Nat → Except E A) (maxRetries delayMs : Nat)
    (retryCount : Nat) : RetryTrace E A :=
  match op retryCount with
  | .ok a => { result := .ok a, calls := 1, delays := [] }
  | .error e =>
      if h : maxRetries ≤ retryCount then
        { result := .error e, calls := 1, delays := [] }
      else
        let t := withRetry op maxRetries delayMs (retryCount + 1)
        { result := t.result, calls := t.calls + 1, delays := delayMs :: t.delays }
termination_by maxRetries - retryCount
decreasing_by omega

/-! ## Block cursor / poller (src/monitor.js lines 284-318,
src/blockMonitor.js lines 278-304) -/

/-- Record of one batch of the inner loop: its bounds, the block numbers
attempted, how many `processBlockSafely` calls succeeded, and the value of
`latestBlock` right after the unconditional `latestBlock = end`. -/
structure BatchLog where
  batchStart : Nat
  batchEnd : Nat
  attempted : List Nat
  successes : Nat
  cursorAfter : Nat
deriving DecidableEq

/-- The inner `for (let blockNumber = start; blockNumber <= end; ...)` loop:
every block in `[s, e]` is attempted once and the successes are counted
(`fails b = true` models `processBlockSafely` reporting failure for block
`b`; failures are only logged). -/
def processBatchBlocks (fails : Nat → Bool) (s e : Nat) : List Nat × Nat :=
  let blocks := List.range' s (e + 1 - s)
  (blocks, (blocks.filter (fun b => !fails b)).length)

/-- The outer `for (let start = latestBlock + 1; start <= currentBlock;
start += MAX_BLOCKS_PER_BATCH)` loop: each batch runs
`end = min(start + B - 1, head)`, attempts its blocks, and then
unconditionally sets `latestBlock = end`.  Returns the batch logs and the
final cursor. -/
def runBatches (fails : Nat → Bool) (B head : Nat) (start cursor : Nat) :
    List BatchLog × Nat :=
  if _h : start ≤ head ∧ 0 < B then
    let e := min (start + B - 1) head
    let p := processBatchBlocks fails start e
    let rest := runBatches fails B head (start + B) e
    (⟨start, e, p.1, p.2, e⟩ :: rest.1, rest.2)
  else ([], cursor)
termination_by head + 1 - start
decreasing_by omega

/-- One poll iteration of `monitorBlocks`: if `currentBlock > latestBlock`,
run the batch loop over `(cursor, head]`, else do nothing. -/
def monitorIter (fails : Nat → Bool) (B cursor head : Nat) :
    List BatchLog × Nat :=
  if cursor < head then runBatches fails B head (cursor + 1) cursor
  else ([], cursor)

/-- Repeated poll iterations, one per observed head value: returns all
attempted block numbers, in order, and the cursor value after each
iteration. -/
def pollTrace (fails : Nat → Bool) (B : Nat) :
    Nat → List Nat → List Nat × List Nat
  | _, [] => ([], [])
  | c, h :: hs =>
      let it := monitorIter fails B c h
      let rest := pollTrace fails B it.2 hs
      (((it.1.map BatchLog.attempted).flatten) ++ rest.1, it.2 :: rest.2)

/-! ## Claim C2: transaction filter and trace gating -/

/-- Claim C2 (amended): if neither `to` nor `from` (lower-cased) equals the
monitored token address and `inputData` does not contain the token address
without its `0x` prefix, then the filter returns false and the blockMonitor
pipeline never fetches the trace; the monitor pipeline fetches the trace
anyway exactly when the input begins with the ERC-20 transfer selector
`0xa9059cbb` and the `BigInt` value decode of line 61 succeeds (nonempty
hex value slice) — that selector branch bypasses the filter in
`src/monitor.js`. -/
theorem c2_filter_gate (tx : RawTx)
    (hto : lowerOpt tx.to' ≠ some PYUSD_ADDRESS)
    (hfrom : lowerOpt tx.from' ≠ some PYUSD_ADDRESS)
    (hin : strContains (inputOf tx) (strDrop PYUSD_ADDRESS 2) = false) :
    involvesPYUSD tx = false ∧
    blockMonitorFetchesTrace tx = false ∧
    (isPYUSDTransfer tx = false → monitorFetchesTrace tx = false) ∧
    (monitorFetchesTrace tx = true →
      isPYUSDTransfer tx = true ∧ transferDecodeOk (inputOf tx) = true) := by
  have hinv : involvesPYUSD tx = false := by
    unfold involvesPYUSD
    simp only [Bool.or_eq_false_iff, beq_eq_false_iff_ne, ne_eq]
    exact ⟨⟨hto, hfrom⟩, hin⟩
  refine ⟨hinv, ?_, ?_, ?_⟩
  · unfold blockMonitorFetchesTrace
    cases lowerOpt tx.from' <;> simp [hinv]
  · intro hpt
    unfold monitorFetchesTrace
    cases lowerOpt tx.from' <;> simp [hinv, hpt]
  · intro hm
    by_cases hpt : isPYUSDTransfer tx
    · refine ⟨hpt, ?_⟩
      unfold monitorFetchesTrace at hm
      cases hf : lowerOpt tx.from' with
      | none => rw [hf] at hm; simp at hm
      | some v =>
          rw [hf] at hm
          simp [hpt] at hm
          exact hm
    · exfalso
      have hfalse : monitorFetchesTrace tx = false := by
        unfold monitorFetchesTrace
        cases lowerOpt tx.from' <;> simp [hinv, hpt]
      simp [hfalse] at hm

/-- A transaction that references the monitored token nowhere but whose
input is a full 138-character ERC-20 transfer call (selector plus recipient
and value words), so the line-61 `BigInt` decode succeeds. -/
def c2cexTx : RawTx :=
  { hash := some "0xaa", to' := none,
    from' := some "0x1234567890123456789012345678901234567890",
    data := some "0xa9059cbb00000000000000000000000000000000000000000000000000000000000000000000000000000000000000000000000000000000000000000000000000000000",
    input := none, value := none }

/-- Claim C2 counterexample: `c2cexTx` satisfies every hypothesis of the
original claim (no `to`/`from`/input reference to the token), the filter
returns false, yet the `src/monitor.js` pipeline still reaches the trace
fetch: the input starts with `0xa9059cbb` and its value slice decodes. -/
theorem c2_counterexample :
    lowerOpt c2cexTx.to' ≠ some PYUSD_ADDRESS ∧
    lowerOpt c2cexTx.from' ≠ some PYUSD_ADDRESS ∧
    strContains (inputOf c2cexTx) (strDrop PYUSD_ADDRESS 2) = false ∧
    involvesPYUSD c2cexTx = false ∧
    transferDecodeOk (inputOf c2cexTx) = true ∧
    monitorFetchesTrace c2cexTx = true := by
  decide

/-- A transaction with no token reference and no transfer selector. -/
def c2wTx : RawTx :=
  { hash := none, to' := some "0xBBBB",
    from' := some "0x1234567890123456789012345678901234567890",
    data := some "0x00ff00", input := none, value := none }

/-- Witness for `c2_filter_gate` at the concrete transaction `c2wTx`. -/
theorem c2_filter_gate_witness :
    blockMonitorFetchesTrace c2wTx = false ∧ monitorFetchesTrace c2wTx = false := by
  have h := c2_filter_gate c2wTx (by decide) (by decide) (by decide)
  exact ⟨h.2.1, h.2.2.1 (by decide)⟩

/-! ## Claim C1: alert assembly -/

/-- Claim C1 (amended): in `src/blockMonitor.js` alerts are assembled one
per compliance issue, in order (so zero issues emit zero alerts even when
the analyzer flagged); in `src/monitor.js` a single combined alert is
emitted whenever the analyzer flagged or at least one issue fired —
including an analyzer-only flag with zero issues. -/
theorem c1_alert_assembly (txHash : String) (bn : Nat) (ts : String)
    (report : RiskReport) (flags : List ComplianceIssue) :
    (blockMonitorAlerts txHash bn ts report flags).map Alert.rule
      = flags.map ComplianceIssue.rule ∧
    (monitorAlerts txHash bn ts report flags).length
      = (if report.flagged || decide (0 < flags.length) then 1 else 0) := by
  constructor
  · unfold blockMonitorAlerts
    by_cases h : (report.flagged || decide (0 < flags.length)) = true
    · simp [h]
    · have hlen : flags.length = 0 := by
        simp only [Bool.or_eq_true, decide_eq_true_eq] at h
        omega
      simp [h, List.length_eq_zero.mp hlen]
  · unfold monitorAlerts
    by_cases h : (report.flagged || decide (0 < flags.length)) = true <;> simp [h]

/-- A six-`JUMP` trace: no risky opcode, constant gas, no trace-level gas,
no return data — only the jump-frequency heuristic fires. -/
def jumpStep (i : Nat) : Step :=
  { pc := i, op := "JUMP", gas := 100, depth := 1, stack := [] }

def trace6jump : Trace :=
  { gas := none, structLogs := (List.range 6).map jumpStep, returnValue := none }

/-- A transaction touching no blacklisted address. -/
def cleanTx : RawTx :=
  { hash := some "0xab",
    to' := some "0x2222222222222222222222222222222222222222",
    from' := some "0x3333333333333333333333333333333333333333",
    data := some "0x", input := none, value := none }

/-- Claim C1 counterexample: on `trace6jump` the compliance engine returns
zero issues and the analyzer flags, yet the `src/monitor.js` pipeline emits
one alert (rule `"No rule triggered"`), contradicting the claim that zero
compliance issues emit no alert. -/
theorem c1_counterexample :
    evaluateCompliance trace6jump cleanTx = .ok [] ∧
    (analyzeTrace trace6jump).flagged = true ∧
    (monitorAlerts "0xab" 1 "t0" (analyzeTrace trace6jump) []).map Alert.rule
      = ["No rule triggered"] := by
  refine ⟨rfl, by decide, by decide⟩

/-! ## Claim C4: the high-gas signal -/

/-- The amended high-gas condition, stated in the claim's own terms: the
trace-level `gas` value when present and non-zero, otherwise (absent or
zero — JS truthiness) the last step's gas value, strictly above the
5,000,000 threshold. -/
def highGasSpec (t : Trace) : Prop :=
  (∃ g, t.gas = some g ∧ g ≠ 0 ∧ HIGH_GAS_THRESHOLD < g) ∨
  ((t.gas = none ∨ t.gas = some 0) ∧ HIGH_GAS_THRESHOLD < lastStepGasOr0 t)

/-- Claim C4 (amended): both the analyzer's `highGasUsage` and the
compliance `HIGH_GAS_USAGE` rule fire exactly when the trace-level `gas`
field — falling back to the last step's gas when `gas` is absent *or zero*
(and to 0 for an empty log) — strictly exceeds 5,000,000. -/
theorem c4_high_gas (t : Trace) :
    ((analyzeTrace t).highGasUsage = true ↔ highGasSpec t) ∧
    ((checkHighGas t).isSome = true ↔ highGasSpec t) := by
  have key : (HIGH_GAS_THRESHOLD < jsFinalGas t) ↔ highGasSpec t := by
    unfold jsFinalGas highGasSpec
    cases hg : t.gas with
    | none => simp
    | some g =>
        by_cases hz : g = 0 <;> simp [hz]
  constructor
  · simp only [analyzeTrace, decide_eq_true_eq]
    exact key
  · unfold checkHighGas
    by_cases h : HIGH_GAS_THRESHOLD < jsFinalGas t
    · simpa [h] using key.mp h
    · simpa [h] using fun hc => h (key.mpr hc)

/-- The literal original-claim reading of the gas value: the trace-level
field when present (even if `0`), the last step's gas only when absent.
Named definition following the claim's words, for comparison with the
code's `jsFinalGas`. -/
def c4ClaimedGas (t : Trace) : Nat :=
  match t.gas with
  | some g => g
  | none => lastStepGasOr0 t

/-- A trace with a present-but-zero trace-level `gas` and a high last-step
gas value. -/
def c4cexTrace : Trace :=
  { gas := some 0,
    structLogs := [{ pc := 0, op := "STOP", gas := 6000000, depth := 1, stack := [] }],
    returnValue := none }

/-- Claim C4 counterexample: on `c4cexTrace` the claimed gas value is `0`
(below the threshold, so per the claim the signal must not fire), yet both
the analyzer and the compliance rule fire, because the JS `||` fallback also
triggers on a present `gas` of `0`. -/
theorem c4_counterexample :
    (checkHighGas c4cexTrace).isSome = true ∧
    (analyzeTrace c4cexTrace).highGasUsage = true ∧
    c4ClaimedGas c4cexTrace = 0 ∧
    ¬ (HIGH_GAS_THRESHOLD < c4ClaimedGas c4cexTrace) := by
  decide

/-! ## Claim C3: what sets `flagged` -/

theorem freqOf_bumpFreq_self (m : List (String × Nat)) (op : String) :
    freqOf (bumpFreq m op) op = freqOf m op + 1 := by
  induction m with
  | nil => simp [bumpFreq, freqOf]
  | cons kv rest ih =>
      obtain ⟨k, v⟩ := kv
      by_cases h : k = op <;> simp [bumpFreq, freqOf, h, ih]

theorem freqOf_bumpFreq_ne (m : List (String × Nat)) (op op' : String)
    (h : op' ≠ op) : freqOf (bumpFreq m op) op' = freqOf m op' := by
  induction m with
  | nil => simp [bumpFreq, freqOf, Ne.symm h]
  | cons kv rest ih =>
      obtain ⟨k, v⟩ := kv
      by_cases hk : k = op
      · subst hk
        simp [bumpFreq, freqOf, Ne.symm h]
      · by_cases hk' : k = op'
        · subst hk'
          simp [bumpFreq, freqOf, hk, ih]
        · simp [bumpFreq, freqOf, hk, hk', ih]

/-- The loop invariant of `analyzeTrace`: inside the scan, `report.flagged`
is exactly "a risky opcode was pushed, or the running `JUMP`/`JUMPI`
frequency went above 5, or a gas spike was detected". -/
def flagInv (st : ScanState) : Prop :=
  (st.flagged = true) ↔
    (st.riskyOpcodes ≠ [] ∨
     5 < freqOf st.opcodeFrequency "JUMP" ∨
     5 < freqOf st.opcodeFrequency "JUMPI" ∨
     st.gasSpikeDetected = true)


/-- The gas-spike test of one loop iteration, as a function of the previous
`lastGas` value. -/
def scanSpike (st : ScanState) (s : Step) : Bool :=
  match st.lastGas with
  | some lg => decide (3 * lg < 2 * s.gas)
  | none => false

theorem scanStep_riskyOpcodes (st : ScanState) (s : Step) :
    (scanStep st s).riskyOpcodes =
      (if riskyOpcodesSet.contains s.op
       then st.riskyOpcodes ++ [⟨s.op, s.pc, s.depth⟩]
       else st.riskyOpcodes) := rfl

theorem scanStep_opcodeFrequency (st : ScanState) (s : Step) :
    (scanStep st s).opcodeFrequency = bumpFreq st.opcodeFrequency s.op := rfl

theorem scanStep_gasSpikeDetected (st : ScanState) (s : Step) :
    (scanStep st s).gasSpikeDetected = (st.gasSpikeDetected || scanSpike st s) := rfl

theorem scanStep_flagged (st : ScanState) (s : Step) :
    (scanStep st s).flagged =
      ((if (s.op == "JUMPI" || s.op == "JUMP") &&
            decide (5 < freqOf (bumpFreq st.opcodeFrequency s.op) s.op)
        then true
        else st.flagged || riskyOpcodesSet.contains s.op) || scanSpike st s) := rfl

theorem scanStep_flagInv (st : ScanState) (s : Step) (h : flagInv st) :
    flagInv (scanStep st s) := by
  unfold flagInv at h ⊢
  rw [scanStep_flagged, scanStep_riskyOpcodes, scanStep_opcodeFrequency,
    scanStep_gasSpikeDetected]
  by_cases hR : riskyOpcodesSet.contains s.op
  · simp only [hR, Bool.or_true, if_true]
    by_cases hc : (s.op == "JUMPI" || s.op == "JUMP") &&
        decide (5 < freqOf (bumpFreq st.opcodeFrequency s.op) s.op) <;>
      simp [hc]
  · simp only [hR, Bool.or_false, if_false]
    by_cases hJ : s.op = "JUMP"
    · simp only [hJ]
      have hJJ : freqOf (bumpFreq st.opcodeFrequency "JUMP") "JUMP"
          = freqOf st.opcodeFrequency "JUMP" + 1 := freqOf_bumpFreq_self _ _
      have hJI : freqOf (bumpFreq st.opcodeFrequency "JUMP") "JUMPI"
          = freqOf st.opcodeFrequency "JUMPI" :=
        freqOf_bumpFreq_ne _ _ _ (by decide)
      by_cases hc : 5 < freqOf st.opcodeFrequency "JUMP" + 1
      · simp only [hJJ, hJI, hc]
        simp
      · simp only [hJJ, hJI]
        simp [hc]
        have hnum : ¬ 5 < freqOf st.opcodeFrequency "JUMP" := by omega
        rw [h]
        tauto
    · by_cases hJI : s.op = "JUMPI"
      · simp only [hJI]
        have hJJ : freqOf (bumpFreq st.opcodeFrequency "JUMPI") "JUMPI"
            = freqOf st.opcodeFrequency "JUMPI" + 1 := freqOf_bumpFreq_self _ _
        have hJI2 : freqOf (bumpFreq st.opcodeFrequency "JUMPI") "JUMP"
            = freqOf st.opcodeFrequency "JUMP" :=
          freqOf_bumpFreq_ne _ _ _ (by decide)
        by_cases hc : 5 < freqOf st.opcodeFrequency "JUMPI" + 1
        · simp only [hJJ, hJI2, hc]
          simp
        · simp only [hJJ, hJI2]
          simp [hc]
          have hnum : ¬ 5 < freqOf st.opcodeFrequency "JUMPI" := by omega
          rw [h]
          tauto
      · have hbJ : (s.op == "JUMP") = false := by
          simp [hJ]
        have hbJI : (s.op == "JUMPI") = false := by
          simp [hJI]
        have hfJ : freqOf (bumpFreq st.opcodeFrequency s.op) "JUMP"
            = freqOf st.opcodeFrequency "JUMP" :=
          freqOf_bumpFreq_ne _ _ _ (fun hh => hJ hh.symm)
        have hfJI : freqOf (bumpFreq st.opcodeFrequency s.op) "JUMPI"
            = freqOf st.opcodeFrequency "JUMPI" :=
          freqOf_bumpFreq_ne _ _ _ (fun hh => hJI hh.symm)
        simp only [hbJ, hbJI, hfJ, hfJI]
        simp
        rw [h]
        tauto

theorem foldl_flagInv (l : List Step) (st : ScanState) (h : flagInv st) :
    flagInv (l.foldl scanStep st) := by
  induction l generalizing st with
  | nil => exact h
  | cons x xs ih => exact ih _ (scanStep_flagInv st x h)

/-- Claim C3 (amended): `flagged` is true iff one of the sub-signals fired —
a risky-opcode hit, the jump-frequency heuristic (more than five `JUMP` or
more than five `JUMPI` occurrences), a gas spike, high total gas,
multi-depth-`DELEGATECALL` reentrancy suspicion, or large return data.
Stack-manipulation hits other than high-frequency jumps never set
`flagged`. -/
theorem c3_flagged_iff (t : Trace) :
    (analyzeTrace t).flagged = true ↔
      ((analyzeTrace t).riskyOpcodes ≠ [] ∨
       5 < freqOf (analyzeTrace t).opcodeFrequency "JUMP" ∨
       5 < freqOf (analyzeTrace t).opcodeFrequency "JUMPI" ∨
       (analyzeTrace t).gasSpikeDetected = true ∨
       (analyzeTrace t).highGasUsage = true ∨
       (analyzeTrace t).reentrancySuspected = true ∨
       (analyzeTrace t).largeReturnData = true) := by
  have hinv := foldl_flagInv t.structLogs initScan
    (by simp [flagInv, initScan, freqOf])
  unfold flagInv at hinv
  simp only [analyzeTrace, Bool.or_eq_true, decide_eq_true_eq]
  rw [hinv]
  tauto

/-- Claim C3 counterexample: six `JUMP` steps with constant gas, no
trace-level gas, no return data — zero risky opcodes, zero gas spikes, gas
below threshold, return data below threshold, yet `flagged` is true (and
the only hits recorded are stack-manipulation ones). -/
theorem c3_counterexample :
    (analyzeTrace trace6jump).flagged = true ∧
    (analyzeTrace trace6jump).riskyOpcodes = [] ∧
    (analyzeTrace trace6jump).gasSpikeDetected = false ∧
    (analyzeTrace trace6jump).highGasUsage = false ∧
    (analyzeTrace trace6jump).reentrancySuspected = false ∧
    (analyzeTrace trace6jump).largeReturnData = false ∧
    (analyzeTrace trace6jump).stackManipulation ≠ [] := by
  decide

/-! ## Claim C5: reentrancy suspicion -/

theorem scanStep_delegateCallDepths (st : ScanState) (s : Step) :
    (scanStep st s).delegateCallDepths =
      (if s.op == "DELEGATECALL" then jsSetAdd st.delegateCallDepths s.depth
       else st.delegateCallDepths) := by
  by_cases h : s.op = "DELEGATECALL"
  · simp [scanStep, h, riskyOpcodesSet]
  · simp [scanStep, h]

theorem scan_ddepths_eq (l : List Step) (st : ScanState) :
    (l.foldl scanStep st).delegateCallDepths =
      l.foldl
        (fun acc s => if s.op == "DELEGATECALL" then jsSetAdd acc s.depth else acc)
        st.delegateCallDepths := by
  induction l generalizing st with
  | nil => rfl
  | cons x xs ih =>
      rw [List.foldl_cons, List.foldl_cons, ih, scanStep_delegateCallDepths]

theorem ddfold_eq_filter (l : List Step) (acc : List Nat) :
    l.foldl
        (fun a s => if s.op == "DELEGATECALL" then jsSetAdd a s.depth else a)
        acc
      = ((l.filter (fun s => s.op == "DELEGATECALL")).map Step.depth).foldl
          jsSetAdd acc := by
  induction l generalizing acc with
  | nil => rfl
  | cons x xs ih =>
      rw [List.foldl_cons, List.filter_cons]
      by_cases h : (x.op == "DELEGATECALL") = true
      · rw [if_pos h, if_pos h, List.map_cons, List.foldl_cons, ih]
      · rw [if_neg h, if_neg h, ih]

theorem mem_jsSetAdd (acc : List Nat) (a x : Nat) :
    x ∈ jsSetAdd acc a ↔ x ∈ acc ∨ x = a := by
  unfold jsSetAdd
  by_cases h : a ∈ acc
  · simp [h]
    intro he
    subst he
    exact h
  · simp [h]

theorem nodup_jsSetAdd (acc : List Nat) (a : Nat) (h : acc.Nodup) :
    (jsSetAdd acc a).Nodup := by
  unfold jsSetAdd
  by_cases hm : a ∈ acc
  · simpa [hm] using h
  · rw [if_neg hm, List.nodup_append]
    exact ⟨h, List.nodup_singleton a, by simpa using hm⟩

theorem jsSetAdd_fold_mem (l acc : List Nat) (x : Nat) :
    x ∈ l.foldl jsSetAdd acc ↔ x ∈ acc ∨ x ∈ l := by
  induction l generalizing acc with
  | nil => simp
  | cons a as ih =>
      rw [List.foldl_cons, ih]
      rw [mem_jsSetAdd]
      simp [or_assoc]

theorem jsSetAdd_fold_nodup (l acc : List Nat) (h : acc.Nodup) :
    (l.foldl jsSetAdd acc).Nodup := by
  induction l generalizing acc with
  | nil => exact h
  | cons a as ih => exact ih _ (nodup_jsSetAdd acc a h)

theorem jsSetAdd_fold_length (l : List Nat) :
    (l.foldl jsSetAdd []).length = l.toFinset.card := by
  have hnd : (l.foldl jsSetAdd []).Nodup := jsSetAdd_fold_nodup l [] (by simp)
  have hset : (l.foldl jsSetAdd []).toFinset = l.toFinset := by
    ext x
    simp [List.mem_toFinset, jsSetAdd_fold_mem]
  rw [← List.toFinset_card_of_nodup hnd, hset]

/-- The number of distinct `depth` values at which `DELEGATECALL` occurs in
a trace — the quantity both reentrancy heuristics measure. -/
def distinctDelegateDepths (t : Trace) : Nat :=
  (((t.structLogs.filter (fun s => s.op == "DELEGATECALL")).map
      Step.depth).toFinset).card

theorem delegate_fold_length (t : Trace) :
    (t.structLogs.foldl
        (fun acc l => if l.op == "DELEGATECALL" then jsSetAdd acc l.depth else acc)
        []).length = distinctDelegateDepths t := by
  rw [ddfold_eq_filter, jsSetAdd_fold_length]
  rfl

theorem analyzeTrace_reentrancy (t : Trace) :
    (analyzeTrace t).reentrancySuspected = true ↔ 2 ≤ distinctDelegateDepths t := by
  have hdd : (t.structLogs.foldl scanStep initScan).delegateCallDepths.length
      = distinctDelegateDepths t := by
    rw [scan_ddepths_eq]
    exact delegate_fold_length t
  simp only [analyzeTrace, decide_eq_true_eq]
  omega

theorem checkReentrancy_isSome (t : Trace) :
    ((checkReentrancy t).isSome = true) ↔ 2 ≤ distinctDelegateDepths t := by
  have hL := delegate_fold_length t
  simp only [checkReentrancy]
  by_cases h : 1 < (t.structLogs.foldl
      (fun acc l => if l.op == "DELEGATECALL" then jsSetAdd acc l.depth else acc)
      []).length
  · rw [if_pos h]
    exact ⟨fun _ => by omega, fun _ => rfl⟩
  · rw [if_neg h]
    constructor
    · intro hh
      exact absurd hh (by simp)
    · intro hd
      exfalso
      omega

theorem loopScan_some_ok (steps : List Step) (f : String) :
    ∃ b, loopScan steps (some f) = .ok b := by
  induction steps with
  | nil => exact ⟨false, rfl⟩
  | cons s rest ih =>
      unfold loopScan
      by_cases h2 : 2 ≤ s.stack.length
      · rw [if_pos h2]
        change ∃ b,
          (if ("0x" ++ jsToLower (strTakeRight (s.stack.getD (s.stack.length - 2) "") 40))
              = jsToLower f
           then Except.ok true else loopScan rest (some f)) = Except.ok b
        by_cases heq :
            ("0x" ++ jsToLower (strTakeRight (s.stack.getD (s.stack.length - 2) "") 40))
              = jsToLower f
        · exact ⟨true, if_pos heq⟩
        · obtain ⟨b, hb⟩ := ih
          exact ⟨b, by rw [if_neg heq]; exact hb⟩
      · rw [if_neg h2]
        exact ih

theorem checkSelfTransferLoop_ok (t : Trace) (tx : RawTx) (f : String)
    (hf : tx.from' = some f) :
    ∃ o, checkSelfTransferLoop t tx = .ok o ∧
      (∀ i, o = some i → i.rule = "SELF_TRANSFER_LOOP") := by
  obtain ⟨b, hb⟩ := loopScan_some_ok
    (t.structLogs.filter (fun l => l.op == "CALL" || l.op == "CALLCODE")) f
  cases b
  · have hres : checkSelfTransferLoop t tx = .ok none := by
      simp only [checkSelfTransferLoop, hf, hb]
    exact ⟨none, hres, fun i hi => by cases hi⟩
  · have hres : checkSelfTransferLoop t tx =
        .ok (some (ComplianceIssue.mk "SELF_TRANSFER_LOOP"
          ("Loop detected from " ++ optShow tx.from') true)) := by
      simp only [checkSelfTransferLoop, hf, hb]
    exact ⟨_, hres, fun i hi => by cases hi; rfl⟩

theorem checkHighGas_rule (t : Trace) (i : ComplianceIssue)
    (h : checkHighGas t = some i) : i.rule = "HIGH_GAS_USAGE" := by
  simp only [checkHighGas] at h
  split at h
  · cases Option.some.inj h
    rfl
  · exact Option.noConfusion h

theorem checkInternalTransferFlood_rule (t : Trace) (i : ComplianceIssue)
    (h : checkInternalTransferFlood t = some i) :
    i.rule = "INTERNAL_TRANSFER_FLOOD" := by
  simp only [checkInternalTransferFlood] at h
  split at h
  · cases Option.some.inj h
    rfl
  · exact Option.noConfusion h

theorem checkRiskyOpcodes_rule (t : Trace) (i : ComplianceIssue)
    (h : checkRiskyOpcodes t = some i) : i.rule = "RISKY_OPCODE_USAGE" := by
  simp only [checkRiskyOpcodes] at h
  split at h
  · cases Option.some.inj h
    rfl
  · exact Option.noConfusion h

theorem checkReentrancy_rule (t : Trace) (i : ComplianceIssue)
    (h : checkReentrancy t = some i) : i.rule = "REENTRANCY_SUSPECTED" := by
  simp only [checkReentrancy] at h
  split at h
  · cases Option.some.inj h
    rfl
  · exact Option.noConfusion h

theorem checkBlacklist_rule (tx : RawTx) (i : ComplianceIssue)
    (h : checkBlacklist tx = some i) : i.rule = "BLACKLISTED_ADDRESS" := by
  simp only [checkBlacklist] at h
  split at h
  · cases Option.some.inj h
    rfl
  · exact Option.noConfusion h

theorem evaluateCompliance_ok (t : Trace) (tx : RawTx) (f : String)
    (hf : tx.from' = some f) :
    ∃ r2, checkSelfTransferLoop t tx = .ok r2 ∧
      evaluateCompliance t tx =
        .ok ([checkBlacklist (traceAsTx t), r2, checkHighGas t,
              checkInternalTransferFlood t, checkRiskyOpcodes t,
              checkReentrancy t].filterMap id) ∧
      (∀ i, r2 = some i → i.rule = "SELF_TRANSFER_LOOP") := by
  obtain ⟨o, ho, hrule⟩ := checkSelfTransferLoop_ok t tx f hf
  refine ⟨o, ho, ?_, hrule⟩
  unfold evaluateCompliance
  rw [ho]
  rfl

theorem exists_reentrancy_issue (t : Trace) :
    (∃ i, checkReentrancy t = some i ∧ i.rule = "REENTRANCY_SUSPECTED") ↔
      (checkReentrancy t).isSome = true := by
  constructor
  · rintro ⟨i, hi, -⟩
    simp [hi]
  · intro h
    cases hco : checkReentrancy t with
    | none => rw [hco] at h; simp at h
    | some i => exact ⟨i, rfl, checkReentrancy_rule t i hco⟩

/-- Claim C5: the analyzer's `reentrancySuspected` is true iff
`DELEGATECALL` occurs at two or more distinct depths, and — for a
transaction with a present `from` field, so the engine does not throw —
the compliance engine returns a `REENTRANCY_SUSPECTED` issue iff the same
condition holds; with zero or one distinct depth, neither fires. -/
theorem c5_reentrancy (t : Trace) (tx : RawTx) (f : String)
    (hf : tx.from' = some f) :
    ((analyzeTrace t).reentrancySuspected = true ↔
      2 ≤ distinctDelegateDepths t) ∧
    (∃ issues, evaluateCompliance t tx = .ok issues ∧
      ((∃ i ∈ issues, i.rule = "REENTRANCY_SUSPECTED") ↔
        2 ≤ distinctDelegateDepths t)) := by
  refine ⟨analyzeTrace_reentrancy t, ?_⟩
  obtain ⟨r2, _hr2, heval, hrule2⟩ := evaluateCompliance_ok t tx f hf
  refine ⟨_, heval, ?_⟩
  rw [← checkReentrancy_isSome, ← exists_reentrancy_issue]
  constructor
  · rintro ⟨i, hmem, hri⟩
    simp only [List.mem_filterMap, id_eq] at hmem
    obtain ⟨o, ho, hoi⟩ := hmem
    subst hoi
    simp only [List.mem_cons, List.not_mem_nil, or_false] at ho
    rcases ho with h | h | h | h | h | h
    · have := checkBlacklist_rule (traceAsTx t) i h.symm
      rw [hri] at this
      exact absurd this (by decide)
    · have := hrule2 i h.symm
      rw [hri] at this
      exact absurd this (by decide)
    · have := checkHighGas_rule t i h.symm
      rw [hri] at this
      exact absurd this (by decide)
    · have := checkInternalTransferFlood_rule t i h.symm
      rw [hri] at this
      exact absurd this (by decide)
    · have := checkRiskyOpcodes_rule t i h.symm
      rw [hri] at this
      exact absurd this (by decide)
    · exact ⟨i, h.symm, hri⟩
  · rintro ⟨i, hco, hri⟩
    refine ⟨i, ?_, hri⟩
    simp only [List.mem_filterMap, id_eq]
    exact ⟨checkReentrancy t, by simp, hco⟩

/-- A trace with `DELEGATECALL` at depths 1 and 2. -/
def reentTrace : Trace :=
  { gas := none,
    structLogs :=
      [{ pc := 0, op := "DELEGATECALL", gas := 100, depth := 1, stack := [] },
       { pc := 1, op := "DELEGATECALL", gas := 90, depth := 2, stack := [] }],
    returnValue := none }

/-- Witness for `c5_reentrancy` at the concrete trace `reentTrace` and
transaction `cleanTx`. -/
theorem c5_reentrancy_witness :
    (analyzeTrace reentTrace).reentrancySuspected = true ∧
    ∃ issues, evaluateCompliance reentTrace cleanTx = .ok issues ∧
      ∃ i ∈ issues, i.rule = "REENTRANCY_SUSPECTED" := by
  have h := c5_reentrancy reentTrace cleanTx
    "0x3333333333333333333333333333333333333333" rfl
  obtain ⟨h1, issues, h2, h3⟩ := h
  exact ⟨h1.mpr (by decide), issues, h2, h3.mpr (by decide)⟩

/-! ## Claim C10: the engine throws when `from` is absent -/

theorem loopScan_none_error (steps : List Step)
    (h : ∃ s ∈ steps, 2 ≤ s.stack.length) :
    ∃ e, loopScan steps none = .error e := by
  induction steps with
  | nil => simp at h
  | cons s rest ih =>
      unfold loopScan
      by_cases h2 : 2 ≤ s.stack.length
      · rw [if_pos h2]
        exact ⟨_, rfl⟩
      · rw [if_neg h2]
        apply ih
        rcases h with ⟨x, hx, hlen⟩
        rcases List.mem_cons.mp hx with rfl | hx'
        · exact absurd hlen h2
        · exact ⟨x, hx', hlen⟩

/-- Claim C10: when the transaction's `from` field is absent and the trace
contains a `CALL` or `CALLCODE` step whose stack has at least two entries,
`evaluateCompliance` throws (the self-transfer-loop rule dereferences
`tx.from`), so a defined `from` is an unstated precondition of the engine. -/
theorem c10_missing_from_throws (t : Trace) (tx : RawTx)
    (hf : tx.from' = none)
    (hs : ∃ s ∈ t.structLogs,
      (s.op = "CALL" ∨ s.op = "CALLCODE") ∧ 2 ≤ s.stack.length) :
    ∃ e, evaluateCompliance t tx = .error e := by
  have hstep : ∃ s ∈ t.structLogs.filter
      (fun l => l.op == "CALL" || l.op == "CALLCODE"), 2 ≤ s.stack.length := by
    rcases hs with ⟨s, hmem, hop, hlen⟩
    refine ⟨s, ?_, hlen⟩
    rw [List.mem_filter]
    refine ⟨hmem, ?_⟩
    rcases hop with h | h <;> simp [h]
  obtain ⟨e, he⟩ := loopScan_none_error _ hstep
  have hcs : checkSelfTransferLoop t tx = .error e := by
    simp only [checkSelfTransferLoop, hf, he]
  refine ⟨e, ?_⟩
  simp only [evaluateCompliance, hcs]
  rfl

/-- A `CALL` step with two stack entries. -/
def c10Step : Step :=
  { pc := 0, op := "CALL", gas := 100, depth := 1, stack := ["0xaa", "0xbb"] }

def c10Trace : Trace :=
  { gas := none, structLogs := [c10Step], returnValue := none }

/-- A transaction without a `from` field. -/
def noFromTx : RawTx :=
  { hash := some "0xcc",
    to' := some "0x4444444444444444444444444444444444444444",
    from' := none, data := some "0x", input := none, value := none }

/-- Witness for `c10_missing_from_throws` at the concrete trace `c10Trace`
and transaction `noFromTx`. -/
theorem c10_missing_from_throws_witness :
    ∃ e, evaluateCompliance c10Trace noFromTx = .error e :=
  c10_missing_from_throws c10Trace noFromTx rfl
    ⟨c10Step, by simp [c10Trace], Or.inl rfl, by decide⟩

/-! ## Claim C6: trace fetcher shape validation -/

/-- Claim C6 (amended): in the hash-validating fetcher (`src/unnamed/part_011`)
a first response either yields `null` or is returned with an array
`structLogs` — a shape mismatch is never raised and never returned; but the
timeout-retry path returns the retry response unvalidated, and the
`src/traceAnalyzer.js` fetcher (the one the pipelines import) returns any
successful response unvalidated. -/
theorem c6_fetcher (txHash : String) (v : JsVal) (retry : Except RpcError JsVal) :
    (getTransactionTraceV txHash (.ok v) retry = none ∨
      (getTransactionTraceV txHash (.ok v) retry = some v ∧
        isValidShape v = true)) ∧
    (∀ (e : RpcError) (r : JsVal), retryCondition e = true →
      getTransactionTraceV txHash (.error e) (.ok r)
        = (if isValidTxHash txHash then some r else none)) ∧
    getTransactionTraceTA (.ok v) = some v := by
  refine ⟨?_, ?_, rfl⟩
  · unfold getTransactionTraceV
    by_cases hh : isValidTxHash txHash
    · by_cases hv : isValidShape v
      · right
        constructor
        · simp [hh, hv]
        · exact hv
      · left
        simp [hh, hv]
    · left
      simp [hh]
  · intro e r hre
    unfold getTransactionTraceV
    by_cases hh : isValidTxHash txHash <;> simp [hh, hre]

/-- A response object whose `structLogs` is not an array. -/
def malformedResp : JsVal := .vobj .notArr

/-- An RPC error that triggers the one-shot retry. -/
def timeoutErr : RpcError := { message := "connection timeout", code := none }

def validHash64 : String :=
  "0x0000000000000000000000000000000000000000000000000000000000000000"

/-- Claim C6 counterexample: a valid hash, a first call failing with a
timeout, and a retry answering a malformed shape — `getTransactionTrace`
(part_011) returns the malformed value to the caller instead of treating it
as unavailable, and the `traceAnalyzer.js` variant returns it directly. -/
theorem c6_counterexample :
    isValidTxHash validHash64 = true ∧
    retryCondition timeoutErr = true ∧
    getTransactionTraceV validHash64 (.error timeoutErr) (.ok malformedResp)
      = some malformedResp ∧
    isValidShape malformedResp = false ∧
    getTransactionTraceTA (.ok malformedResp) = some malformedResp := by
  decide

/-- Witness for `c6_fetcher` at concrete inputs. -/
theorem c6_fetcher_witness :
    getTransactionTraceV validHash64 (.error timeoutErr) (.ok .vnull)
      = (if isValidTxHash validHash64 then some .vnull else none) ∧
    getTransactionTraceTA (.ok .vnull) = some .vnull := by
  have h := c6_fetcher validHash64 .vnull (.ok .vnull)
  exact ⟨h.2.1 timeoutErr .vnull (by decide), h.2.2⟩

/-! ## Claim C7: the retry helper -/

theorem withRetry_calls_pos {E A : Type} (op : Nat → Except E A)
    (maxR delay rc : Nat) : 1 ≤ (withRetry op maxR delay rc).calls := by
  rw [withRetry]
  cases hop : op rc with
  | ok a => simp
  | error e => by_cases hle : maxR ≤ rc <;> simp [hle]

theorem withRetry_calls_le {E A : Type} (op : Nat → Except E A)
    (maxR delay : Nat) :
    ∀ n rc, maxR - rc ≤ n → (withRetry op maxR delay rc).calls ≤ n + 1 := by
  intro n
  induction n with
  | zero =>
      intro rc h
      rw [withRetry]
      cases hop : op rc with
      | ok a => simp
      | error e =>
          have hle : maxR ≤ rc := by omega
          simp [hle]
  | succ n ih =>
      intro rc h
      rw [withRetry]
      cases hop : op rc with
      | ok a => simp
      | error e =>
          by_cases hle : maxR ≤ rc
          · simp [hle]
          · simp [hle]
            have := ih (rc + 1) (by omega)
            omega

theorem withRetry_delays_replicate {E A : Type} (op : Nat → Except E A)
    (maxR delay : Nat) :
    ∀ n rc, maxR - rc ≤ n →
      (withRetry op maxR delay rc).delays
        = List.replicate ((withRetry op maxR delay rc).calls - 1) delay := by
  intro n
  induction n with
  | zero =>
      intro rc h
      rw [withRetry]
      cases hop : op rc with
      | ok a => simp
      | error e =>
          have hle : maxR ≤ rc := by omega
          simp [hle]
  | succ n ih =>
      intro rc h
      rw [withRetry]
      cases hop : op rc with
      | ok a => simp
      | error e =>
          by_cases hle : maxR ≤ rc
          · simp [hle]
          · have hpos := withRetry_calls_pos op maxR delay (rc + 1)
            have hdel := ih (rc + 1) (by omega)
            simp [hle, hdel]
            cases hc : (withRetry op maxR delay (rc + 1)).calls with
            | zero => exact absurd hc (by omega)
            | succ m => simp [List.replicate_succ]

theorem withRetry_first_ok {E A : Type} (op : Nat → Except E A)
    (maxR delay : Nat) :
    ∀ n rc k a, maxR - rc ≤ n → rc ≤ k → k ≤ maxR → op k = .ok a →
      (∀ j, rc ≤ j → j < k → ∃ e, op j = .error e) →
      (withRetry op maxR delay rc).result = .ok a ∧
      (withRetry op maxR delay rc).calls = k + 1 - rc := by
  intro n
  induction n with
  | zero =>
      intro rc k a h hrk hkm hok _hfail
      have hk : k = rc := by omega
      subst hk
      rw [withRetry, hok]
      exact ⟨rfl, by simp⟩
  | succ n ih =>
      intro rc k a h hrk hkm hok hfail
      by_cases hkr : k = rc
      · subst hkr
        rw [withRetry, hok]
        exact ⟨rfl, by simp⟩
      · obtain ⟨e, he⟩ := hfail rc (Nat.le_refl rc) (by omega)
        rw [withRetry, he]
        have hle : ¬ maxR ≤ rc := by omega
        obtain ⟨hr1, hr2⟩ := ih (rc + 1) k a (by omega) (by omega) hkm hok
          (fun j hj1 hj2 => hfail j (by omega) hj2)
        simp [hle, hr1]
        omega

theorem withRetry_all_fail {E A : Type} (op : Nat → Except E A)
    (maxR delay : Nat) :
    ∀ n rc, maxR - rc ≤ n → rc ≤ maxR →
      (∀ j, rc ≤ j → j ≤ maxR → ∃ e, op j = .error e) →
      (withRetry op maxR delay rc).result = op maxR ∧
      (withRetry op maxR delay rc).calls = maxR + 1 - rc := by
  intro n
  induction n with
  | zero =>
      intro rc h hrm hfail
      have hk : rc = maxR := by omega
      subst hk
      obtain ⟨e, he⟩ := hfail rc (Nat.le_refl rc) (Nat.le_refl rc)
      rw [withRetry, he]
      refine ⟨?_, ?_⟩ <;> simp [he]
  | succ n ih =>
      intro rc h hrm hfail
      by_cases hmr : maxR ≤ rc
      · have hk : rc = maxR := by omega
        subst hk
        obtain ⟨e, he⟩ := hfail rc (Nat.le_refl rc) (Nat.le_refl rc)
        rw [withRetry, he]
        refine ⟨?_, ?_⟩ <;> simp [he]
      · obtain ⟨e, he⟩ := hfail rc (Nat.le_refl rc) (by omega)
        rw [withRetry, he]
        obtain ⟨hr1, hr2⟩ := ih (rc + 1) (by omega) (by omega)
          (fun j hj1 hj2 => hfail j (by omega) hj2)
        simp [hmr, hr1]
        omega

/-- Claim C7: `withRetry` invokes the operation at most `1 + maxAttempts`
times, returns the first successful result unchanged, waits the constant
delay between consecutive attempts, and when every attempt fails it
propagates the last error unchanged (`op k` is the outcome of the `k`-th
invocation). -/
theorem c7_withRetry {E A : Type} (op : Nat → Except E A)
    (maxAttempts delay : Nat) :
    (withRetry op maxAttempts delay 0).calls ≤ 1 + maxAttempts ∧
    (withRetry op maxAttempts delay 0).delays
      = List.replicate ((withRetry op maxAttempts delay 0).calls - 1) delay ∧
    (∀ k a, k ≤ maxAttempts → op k = .ok a →
      (∀ j, j < k → ∃ e, op j = .error e) →
      (withRetry op maxAttempts delay 0).result = .ok a ∧
      (withRetry op maxAttempts delay 0).calls = k + 1) ∧
    ((∀ j, j ≤ maxAttempts → ∃ e, op j = .error e) →
      (withRetry op maxAttempts delay 0).result = op maxAttempts ∧
      (withRetry op maxAttempts delay 0).calls = maxAttempts + 1) := by
  refine ⟨?_, withRetry_delays_replicate op maxAttempts delay maxAttempts 0 (by omega),
    ?_, ?_⟩
  · have := withRetry_calls_le op maxAttempts delay maxAttempts 0 (by omega)
    omega
  · intro k a hk hok hfail
    obtain ⟨h1, h2⟩ := withRetry_first_ok op maxAttempts delay maxAttempts 0 k a
      (by omega) (Nat.zero_le k) hk hok (fun j _ hj2 => hfail j hj2)
    exact ⟨h1, by omega⟩
  · intro hfail
    obtain ⟨h1, h2⟩ := withRetry_all_fail op maxAttempts delay maxAttempts 0
      (by omega) (Nat.zero_le maxAttempts) (fun j _ hj2 => hfail j hj2)
    exact ⟨h1, by omega⟩

/-- A concrete failing-then-succeeding operation: the first two invocations
throw, the third succeeds. -/
def opEx : Nat → Except String Nat :=
  fun k => if k < 2 then .error ("boom " ++ toString k) else .ok 42

/-- Witness for `c7_withRetry` at the concrete operation `opEx` with three
allowed retries and delay 7. -/
theorem c7_withRetry_witness :
    (withRetry opEx 3 7 0).result = .ok 42 ∧
    (withRetry opEx 3 7 0).calls = 3 ∧
    (withRetry opEx 3 7 0).delays = [7, 7] := by
  have h := c7_withRetry opEx 3 7
  obtain ⟨hr, hc⟩ := h.2.2.1 2 42 (by omega) (by simp [opEx])
    (fun j hj => ⟨"boom " ++ toString j, by simp [opEx, hj]⟩)
  refine ⟨hr, hc, ?_⟩
  rw [h.2.1, hc]
  rfl

/-! ## Claim C8: the block cursor -/

theorem runBatches_snd (f : Nat → Bool) (B head : Nat) (hB : 0 < B) :
    ∀ n start cursor, head + 1 - start ≤ n → start ≤ head →
      (runBatches f B head start cursor).2 = head := by
  intro n
  induction n with
  | zero =>
      intro s c h hs
      exact absurd h (by omega)
  | succ n ih =>
      intro s c h hs
      rw [runBatches, dif_pos (⟨hs, hB⟩ : s ≤ head ∧ 0 < B)]
      show (runBatches f B head (s + B) (min (s + B - 1) head)).2 = head
      by_cases hnext : s + B ≤ head
      · exact ih (s + B) _ (by omega) hnext
      · rw [runBatches, dif_neg (by omega : ¬(s + B ≤ head ∧ 0 < B))]
        show min (s + B - 1) head = head
        omega

theorem runBatches_attempted (f : Nat → Bool) (B head : Nat) (hB : 0 < B) :
    ∀ n start cursor, head + 1 - start ≤ n →
      ((runBatches f B head start cursor).1.map BatchLog.attempted).flatten
        = List.range' start (head + 1 - start) := by
  intro n
  induction n with
  | zero =>
      intro s c h
      rw [runBatches, dif_neg (by omega : ¬(s ≤ head ∧ 0 < B))]
      have h0 : head + 1 - s = 0 := by omega
      simp [h0]
  | succ n ih =>
      intro s c h
      by_cases hs : s ≤ head
      · rw [runBatches, dif_pos (⟨hs, hB⟩ : s ≤ head ∧ 0 < B)]
        show List.range' s (min (s + B - 1) head + 1 - s) ++
            ((runBatches f B head (s + B) (min (s + B - 1) head)).1.map
              BatchLog.attempted).flatten
          = List.range' s (head + 1 - s)
        rw [ih (s + B) _ (by omega)]
        by_cases hnext : s + B ≤ head
        · have he : min (s + B - 1) head = s + B - 1 := by omega
          rw [he]
          have h1 : s + B - 1 + 1 - s = B := by omega
          rw [h1]
          have happ := List.range'_append s B (head + 1 - (s + B)) 1
          simp only [one_mul] at happ
          rw [happ]
          congr 1
          omega
        · have he : min (s + B - 1) head = head := by omega
          rw [he]
          have h0 : head + 1 - (s + B) = 0 := by omega
          rw [h0]
          simp
      · rw [runBatches, dif_neg (by omega : ¬(s ≤ head ∧ 0 < B))]
        have h0 : head + 1 - s = 0 := by omega
        simp [h0]

theorem runBatches_mem (f : Nat → Bool) (B head : Nat) :
    ∀ n start cursor, head + 1 - start ≤ n →
      ∀ ℓ ∈ (runBatches f B head start cursor).1,
        ℓ.cursorAfter = ℓ.batchEnd ∧
        ℓ.batchEnd = min (ℓ.batchStart + B - 1) head := by
  intro n
  induction n with
  | zero =>
      intro s c h
      rw [runBatches, dif_neg (by omega : ¬(s ≤ head ∧ 0 < B))]
      simp
  | succ n ih =>
      intro s c h
      by_cases hcond : s ≤ head ∧ 0 < B
      · rw [runBatches, dif_pos hcond]
        intro ℓ hℓ
        simp only [List.mem_cons] at hℓ
        rcases hℓ with rfl | hmem
        · exact ⟨rfl, rfl⟩
        · exact ih (s + B) _ (by omega) ℓ hmem
      · rw [runBatches, dif_neg hcond]
        simp

theorem monitorIter_snd (f : Nat → Bool) (B c h : Nat) (hB : 0 < B) :
    (monitorIter f B c h).2 = if c < h then h else c := by
  unfold monitorIter
  by_cases hc : c < h
  · rw [if_pos hc, if_pos hc]
    exact runBatches_snd f B h hB (h + 1 - (c + 1)) (c + 1) c (by omega) (by omega)
  · rw [if_neg hc, if_neg hc]

theorem monitorIter_attempted (f : Nat → Bool) (B c h : Nat) (hB : 0 < B) :
    ((monitorIter f B c h).1.map BatchLog.attempted).flatten
      = List.range' (c + 1) (h - c) := by
  unfold monitorIter
  by_cases hc : c < h
  · rw [if_pos hc]
    have hr := runBatches_attempted f B h hB (h + 1 - (c + 1)) (c + 1) c (by omega)
    rw [hr]
    congr 1
    omega
  · rw [if_neg hc]
    have h0 : h - c = 0 := by omega
    simp [h0]

theorem monitorIter_mem (f : Nat → Bool) (B c h : Nat) :
    ∀ ℓ ∈ (monitorIter f B c h).1,
      ℓ.cursorAfter = ℓ.batchEnd ∧
      ℓ.batchEnd = min (ℓ.batchStart + B - 1) h := by
  unfold monitorIter
  by_cases hc : c < h
  · rw [if_pos hc]
    exact runBatches_mem f B h (h + 1 - (c + 1)) (c + 1) c (by omega)
  · rw [if_neg hc]
    simp

theorem pollTrace_indep (f g : Nat → Bool) (B : Nat) (hB : 0 < B) :
    ∀ (heads : List Nat) (c : Nat),
      (pollTrace f B c heads).1 = (pollTrace g B c heads).1 ∧
      (pollTrace f B c heads).2 = (pollTrace g B c heads).2 := by
  intro heads
  induction heads with
  | nil => intro c; exact ⟨rfl, rfl⟩
  | cons h hs ih =>
      intro c
      have hsnd : (monitorIter f B c h).2 = (monitorIter g B c h).2 := by
        rw [monitorIter_snd f B c h hB, monitorIter_snd g B c h hB]
      have hatt : ((monitorIter f B c h).1.map BatchLog.attempted).flatten
          = ((monitorIter g B c h).1.map BatchLog.attempted).flatten := by
        rw [monitorIter_attempted f B c h hB, monitorIter_attempted g B c h hB]
      constructor
      · show ((monitorIter f B c h).1.map BatchLog.attempted).flatten
            ++ (pollTrace f B (monitorIter f B c h).2 hs).1
          = ((monitorIter g B c h).1.map BatchLog.attempted).flatten
            ++ (pollTrace g B (monitorIter g B c h).2 hs).1
        rw [hatt, hsnd, (ih (monitorIter g B c h).2).1]
      · show (monitorIter f B c h).2 :: (pollTrace f B (monitorIter f B c h).2 hs).2
          = (monitorIter g B c h).2 :: (pollTrace g B (monitorIter g B c h).2 hs).2
        rw [hsnd, (ih (monitorIter g B c h).2).2]

theorem pollTrace_chain (f : Nat → Bool) (B : Nat) (hB : 0 < B) :
    ∀ (heads : List Nat) (c : Nat),
      List.Chain' (· ≤ ·) (c :: (pollTrace f B c heads).2) := by
  intro heads
  induction heads with
  | nil => intro c; simp [pollTrace]
  | cons h hs ih =>
      intro c
      show List.Chain' (· ≤ ·)
        (c :: (monitorIter f B c h).2 :: (pollTrace f B (monitorIter f B c h).2 hs).2)
      rw [List.chain'_cons]
      constructor
      · rw [monitorIter_snd f B c h hB]
        by_cases hc : c < h
        · rw [if_pos hc]; omega
        · rw [if_neg hc]
      · exact ih (monitorIter f B c h).2

theorem pollTrace_attempted_gt (f : Nat → Bool) (B : Nat) (hB : 0 < B) :
    ∀ (heads : List Nat) (c x : Nat),
      x ∈ (pollTrace f B c heads).1 → c < x := by
  intro heads
  induction heads with
  | nil => intro c x hx; simp [pollTrace] at hx
  | cons h hs ih =>
      intro c x hx
      have hx' : x ∈ ((monitorIter f B c h).1.map BatchLog.attempted).flatten
          ∨ x ∈ (pollTrace f B (monitorIter f B c h).2 hs).1 := by
        simpa using List.mem_append.mp hx
      rcases hx' with h1 | h2
      · rw [monitorIter_attempted f B c h hB] at h1
        have := List.mem_range'_1.mp h1
        omega
      · have hgt := ih (monitorIter f B c h).2 x h2
        have hge : c ≤ (monitorIter f B c h).2 := by
          rw [monitorIter_snd f B c h hB]
          by_cases hc : c < h
          · rw [if_pos hc]; omega
          · rw [if_neg hc]
        omega

theorem pollTrace_nodup (f : Nat → Bool) (B : Nat) (hB : 0 < B) :
    ∀ (heads : List Nat) (c : Nat), ((pollTrace f B c heads).1).Nodup := by
  intro heads
  induction heads with
  | nil => intro c; simp [pollTrace]
  | cons h hs ih =>
      intro c
      show (((monitorIter f B c h).1.map BatchLog.attempted).flatten
        ++ (pollTrace f B (monitorIter f B c h).2 hs).1).Nodup
      rw [List.nodup_append]
      refine ⟨?_, ih _, ?_⟩
      · rw [monitorIter_attempted f B c h hB]
        exact List.nodup_range' _ _
      · intro x hx1 hx2
        rw [monitorIter_attempted f B c h hB] at hx1
        have hb := List.mem_range'_1.mp hx1
        have hgt := pollTrace_attempted_gt f B hB hs (monitorIter f B c h).2 x hx2
        rw [monitorIter_snd f B c h hB] at hgt
        by_cases hc : c < h
        · rw [if_pos hc] at hgt
          omega
        · rw [if_neg hc] at hgt
          omega

/-- Claim C8: across poll iterations the cursor is monotonically
non-decreasing; after each batch the recorded cursor equals the batch's
upper bound `min(start + B - 1, head)` regardless of the per-block failure
pattern; a full iteration advances the cursor to the head; the attempted
block numbers and cursor values are independent of which blocks failed; and
no block number is ever attempted twice. -/
theorem c8_cursor (f g : Nat → Bool) (B c : Nat) (heads : List Nat)
    (hB : 0 < B) :
    List.Chain' (· ≤ ·) (c :: (pollTrace f B c heads).2) ∧
    ((pollTrace f B c heads).1).Nodup ∧
    (pollTrace f B c heads).1 = (pollTrace g B c heads).1 ∧
    (pollTrace f B c heads).2 = (pollTrace g B c heads).2 ∧
    (∀ h', ∀ ℓ ∈ (monitorIter f B c h').1,
      ℓ.cursorAfter = ℓ.batchEnd ∧
      ℓ.batchEnd = min (ℓ.batchStart + B - 1) h') ∧
    (∀ h', c < h' → (monitorIter f B c h').2 = h') ∧
    (∀ h', ((monitorIter f B c h').1.map BatchLog.attempted).flatten
      = List.range' (c + 1) (h' - c)) := by
  refine ⟨pollTrace_chain f B hB heads c, pollTrace_nodup f B hB heads c,
    (pollTrace_indep f g B hB heads c).1, (pollTrace_indep f g B hB heads c).2,
    fun h' => monitorIter_mem f B c h', fun h' hc => ?_,
    fun h' => monitorIter_attempted f B c h' hB⟩
  rw [monitorIter_snd f B c h' hB, if_pos hc]

/-- Witness for `c8_cursor` at a concrete failure pattern, batch size 2,
cursor 0 and head 3. -/
theorem c8_cursor_witness :
    ((pollTrace (fun b => b == 1) 2 0 [3]).1).Nodup ∧
    (monitorIter (fun b => b == 1) 2 0 3).2 = 3 := by
  have h := c8_cursor (fun b => b == 1) (fun _ => false) 2 0 [3] (by decide)
  exact ⟨h.2.1, h.2.2.2.2.2.1 3 (by decide)⟩

/-! ## Claim C9: one stored alert per txHash -/

theorem replaceFirst_filter (store : List Alert) (a : Alert)
    (hmem : store.any (fun b => b.txHash = a.txHash) = true)
    (hle : (store.filter (fun b => b.txHash = a.txHash)).length ≤ 1) :
    (replaceFirstByHash store a).filter (fun b => b.txHash = a.txHash) = [a] := by
  induction store with
  | nil => simp at hmem
  | cons b rest ih =>
      by_cases hb : b.txHash = a.txHash
      · unfold replaceFirstByHash
        rw [if_pos hb]
        have hrest : rest.filter (fun b => b.txHash = a.txHash) = [] := by
          rw [List.filter_cons] at hle
          simp only [hb, decide_True, if_true, List.length_cons] at hle
          have h0 : (rest.filter (fun b => b.txHash = a.txHash)).length = 0 := by
            omega
          exact List.length_eq_zero.mp h0
        rw [List.filter_cons]
        simp [hrest]
      · unfold replaceFirstByHash
        rw [if_neg hb]
        rw [List.filter_cons]
        simp only [hb, decide_False, if_false]
        apply ih
        · rw [List.any_cons] at hmem
          simpa [hb] using hmem
        · rw [List.filter_cons] at hle
          simpa [hb] using hle

theorem saveAlert_filter (store : List Alert) (a : Alert)
    (hle : (store.filter (fun b => b.txHash = a.txHash)).length ≤ 1) :
    (saveAlert store a).filter (fun b => b.txHash = a.txHash) = [a] := by
  unfold saveAlert
  by_cases hany : store.any (fun b => b.txHash = a.txHash) = true
  · rw [if_pos hany]
    exact replaceFirst_filter store a hany hle
  · rw [if_neg hany]
    rw [List.filter_append]
    have hnil : store.filter (fun b => b.txHash = a.txHash) = [] := by
      rw [List.filter_eq_nil_iff]
      intro x hx
      intro hcontra
      apply hany
      rw [List.any_eq_true]
      exact ⟨x, hx, by simpa using hcontra⟩
    rw [hnil]
    simp

/-- Claim C9: from any store respecting the unique `txHash` index (at most
one row per hash), running `saveAlert a1` then `saveAlert a2` with
`a1.txHash = a2.txHash` — even with different rules — leaves exactly one
stored alert for that hash, carrying `a2`'s payload. -/
theorem c9_saveAlert (store : List Alert) (a1 a2 : Alert)
    (hkey : (store.filter (fun b => b.txHash = a1.txHash)).length ≤ 1)
    (hhash : a1.txHash = a2.txHash) :
    (saveAlert (saveAlert store a1) a2).filter
      (fun b => b.txHash = a2.txHash) = [a2] := by
  apply saveAlert_filter
  rw [← hhash]
  rw [saveAlert_filter store a1 hkey]
  simp

/-- The empty risk report (report of the empty trace). -/
def emptyReport : RiskReport := analyzeTrace { gas := none, structLogs := [], returnValue := none }

def alertA : Alert :=
  { txHash := "0xaaa", blockNumber := 1, timestamp := "t1",
    rule := "HIGH_GAS_USAGE", details := "d1",
    riskReport := emptyReport, severity := none }

def alertB : Alert :=
  { txHash := "0xaaa", blockNumber := 1, timestamp := "t2",
    rule := "RISKY_OPCODE_USAGE", details := "d2",
    riskReport := emptyReport, severity := none }

/-- Witness for `c9_saveAlert`: two alerts with the same hash but different
rules, saved into the empty store. -/
theorem c9_saveAlert_witness :
    (saveAlert (saveAlert [] alertA) alertB).filter
      (fun b => b.txHash = alertB.txHash) = [alertB] :=
  c9_saveAlert [] alertA alertB (by decide) rfl
